import Mathlib

/-!
Verification of the `jw-can/litestar` repository fragment: the asyncpg
channels backend (`litestar/channels/backends/asyncpg.py`), together with
the behavioral contracts of the controller/routing layer and of the typing
utilities, as fixed by the repository's test suite and specification.

Bytes and codepoints are modelled as `Nat` (bytes are `< 256`); byte
strings are `List Nat`; Python text strings that carry notification
payloads are modelled as lists of codepoints.
-/

namespace Litestar

/-- Predicate for a UTF-8 continuation byte (`0x80 ≤ b ≤ 0xBF`). -/
def contByte (b : Nat) : Bool := 0x80 ≤ b && b ≤ 0xBF

/-- Lower bound for the second byte of a three-byte sequence: `0xE0` must be
followed by `0xA0..` to rule out overlong encodings. -/
def cont2lo (b1 : Nat) : Nat := if b1 = 0xE0 then 0xA0 else 0x80

/-- Upper bound for the second byte of a three-byte sequence: `0xED` must be
followed by `..0x9F` to rule out surrogate codepoints. -/
def cont2hi (b1 : Nat) : Nat := if b1 = 0xED then 0x9F else 0xBF

/-- Lower bound for the second byte of a four-byte sequence: `0xF0` must be
followed by `0x90..` to rule out overlong encodings. -/
def cont3lo (b1 : Nat) : Nat := if b1 = 0xF0 then 0x90 else 0x80

/-- Upper bound for the second byte of a four-byte sequence: `0xF4` must be
followed by `..0x8F` to keep codepoints below `0x110000`. -/
def cont3hi (b1 : Nat) : Nat := if b1 = 0xF4 then 0x8F else 0xBF

/-- Strict UTF-8 decoding of a byte sequence to a list of codepoints. This
embeds Python's `data.decode("utf-8")` as called in
`AsyncPgChannelsBackend.publish`: it rejects stray continuation bytes,
truncated sequences, overlong encodings, surrogates, and codepoints above
`0x10FFFF`, returning `none` exactly where Python raises
`UnicodeDecodeError`. -/
def utf8Decode : List Nat → Option (List Nat)
  | [] => some []
  | b1 :: rest =>
    if b1 ≤ 0x7F then
      (utf8Decode rest).map fun cs => b1 :: cs
    else if 0xC2 ≤ b1 ∧ b1 ≤ 0xDF then
      match rest with
      | b2 :: rest2 =>
        if contByte b2 then
          (utf8Decode rest2).map fun cs => ((b1 - 0xC0) * 0x40 + (b2 - 0x80)) :: cs
        else none
      | [] => none
    else if 0xE0 ≤ b1 ∧ b1 ≤ 0xEF then
      match rest with
      | b2 :: b3 :: rest3 =>
        if cont2lo b1 ≤ b2 ∧ b2 ≤ cont2hi b1 ∧ contByte b3 then
          (utf8Decode rest3).map fun cs =>
            ((b1 - 0xE0) * 0x1000 + (b2 - 0x80) * 0x40 + (b3 - 0x80)) :: cs
        else none
      | _ => none
    else if 0xF0 ≤ b1 ∧ b1 ≤ 0xF4 then
      match rest with
      | b2 :: b3 :: b4 :: rest4 =>
        if cont3lo b1 ≤ b2 ∧ b2 ≤ cont3hi b1 ∧ contByte b3 ∧ contByte b4 then
          (utf8Decode rest4).map fun cs =>
            ((b1 - 0xF0) * 0x40000 + (b2 - 0x80) * 0x1000 + (b3 - 0x80) * 0x40 + (b4 - 0x80)) :: cs
        else none
      | _ => none
    else none

/-- UTF-8 encoding of a single codepoint, embedding Python's
`str.encode("utf-8")` as called in `AsyncPgChannelsBackend._listener`. -/
def utf8EncodeChar (c : Nat) : List Nat :=
  if c ≤ 0x7F then [c]
  else if c ≤ 0x7FF then [0xC0 + c / 0x40, 0x80 + c % 0x40]
  else if c ≤ 0xFFFF then
    [0xE0 + c / 0x1000, 0x80 + c / 0x40 % 0x40, 0x80 + c % 0x40]
  else
    [0xF0 + c / 0x40000, 0x80 + c / 0x1000 % 0x40, 0x80 + c / 0x40 % 0x40, 0x80 + c % 0x40]

/-- UTF-8 encoding of a list of codepoints. -/
def utf8Encode : List Nat → List Nat
  | [] => []
  | c :: cs => utf8EncodeChar c ++ utf8Encode cs

/-- Errors surfaced by the asyncpg channels backend. -/
inductive PgError where
  | improperlyConfigured (msg : String)
  | unicodeDecodeError
  | notImplementedError
  | runtimeError (msg : String)
  | postgresError
deriving DecidableEq

/-- Truthiness of the `dsn` argument in `if not (dsn or make_connection)`:
Python treats both `None` and the empty string as falsy. -/
def dsnTruthy : Option String → Bool
  | some s => s != ""
  | none => false

/-- The state established by `AsyncPgChannelsBackend.__init__`:
an empty subscribed-channel set, an exit stack (carried as no extra data
since the code never populates it), and the connection source
`make_connection or partial(asyncpg.connect, dsn=dsn)` (recorded as which
of the two sources is used). -/
structure PgInit where
  subscribed_channels : List String
  usesMakeConnection : Bool
deriving DecidableEq

/-- Embedding of `AsyncPgChannelsBackend.__init__`: raises
`ImproperlyConfiguredException` when neither a truthy `dsn` nor a
`make_connection` factory is given (the factory is modelled by an opaque
`Option Unit` presence flag), and otherwise initializes the state. -/
def AsyncPgChannelsBackend.init (dsn : Option String) (make_connection : Option Unit) :
    Except PgError PgInit :=
  if !(dsnTruthy dsn || make_connection.isSome) then
    .error (.improperlyConfigured "Need to specify dsn or make_connection")
  else
    .ok { subscribed_channels := [], usesMakeConnection := make_connection.isSome }

/-- Runtime state of a started backend. Connections are identified by
`Nat` handles; `nextConn` is the allocator for fresh connections, so the
invariant `listenerConn < nextConn` says the long-lived listener
connection was allocated earlier than any connection a `publish` call will
open. The subscribed-channel set is a duplicate-free list. -/
structure PgState where
  subscribed_channels : List String
  queue : List (String × List Nat)
  listenerConn : Nat
  nextConn : Nat
deriving DecidableEq

/-- Observable driver-level actions performed by the backend. -/
inductive PgEffect where
  | connect (conn : Nat)
  | notify (conn : Nat) (channel : String) (payload : List Nat)
  | close (conn : Nat)
deriving DecidableEq

/-- Embedding of `AsyncPgChannelsBackend.publish`: decode the payload as
UTF-8 (propagating the decoding error before anything else happens), open
a fresh short-lived connection, issue `SELECT pg_notify($1, $2)` once per
channel in the given order inside a `try` block, and close the connection
in the `finally` block on both the normal and the raising path. The
environment's fault injection is `failAt`: `some i` makes the `i`-th
notify call raise a driver error (notify effects for indices `< i` were
already issued); `some i` with `i ≥ channels.length` and `none` both mean
no call raises. Returns the updated state, the effect trace, and the
outcome. -/
def AsyncPgChannelsBackend.publish (st : PgState) (data : List Nat) (channels : List String)
    (failAt : Option Nat) : PgState × List PgEffect × Except PgError Unit :=
  match utf8Decode data with
  | none => (st, [], .error .unicodeDecodeError)
  | some dec_data =>
    let conn := st.nextConn
    let sent := match failAt with
      | some i => channels.take i
      | none => channels
    let result : Except PgError Unit := match failAt with
      | some i => if i < channels.length then .error .postgresError else .ok ()
      | none => .ok ()
    ({ st with nextConn := st.nextConn + 1 },
     PgEffect.connect conn :: ((sent.map fun ch => PgEffect.notify conn ch dec_data) ++ [PgEffect.close conn]),
     result)

/-- Embedding of `AsyncPgChannelsBackend.subscribe`: iterate over
`set(channels) - self._subscribed_channels` (represented by the
duplicate-free list `channels.dedup` filtered by non-membership; the
iteration order of a Python set is unspecified), registering the listener
callback and adding the channel for each element. Returns the updated
state and the list of channels for which `add_listener` was called. -/
def AsyncPgChannelsBackend.subscribe (st : PgState) (channels : List String) :
    PgState × List String :=
  let toAdd := channels.dedup.filter fun ch => decide (ch ∉ st.subscribed_channels)
  ({ st with subscribed_channels := st.subscribed_channels ++ toAdd }, toAdd)

/-- Embedding of `AsyncPgChannelsBackend.unsubscribe`: call
`remove_listener` for every element of `channels` (duplicates included),
then subtract `set(channels)` from the subscribed set. Returns the
updated state and the list of channels for which `remove_listener` was
called. -/
def AsyncPgChannelsBackend.unsubscribe (st : PgState) (channels : List String) :
    PgState × List String :=
  ({ st with subscribed_channels :=
      st.subscribed_channels.filter fun ch => decide (ch ∉ channels) },
   channels)

/-- Embedding of `AsyncPgChannelsBackend.get_history`: unconditionally
raises `NotImplementedError`, touching no state. -/
def AsyncPgChannelsBackend.get_history (st : PgState) (channel : String) (limit : Option Nat) :
    PgState × Except PgError (List (List Nat)) :=
  (st, .error .notImplementedError)

/-- Embedding of `AsyncPgChannelsBackend._listener`: the payload delivered
by the driver is `some` codepoints when it is a `str` and `none` otherwise;
a non-`str` payload raises `RuntimeError`, and a textual payload is
re-encoded to UTF-8 bytes and enqueued without blocking. -/
def AsyncPgChannelsBackend._listener (st : PgState) (connection : Nat) (pid : Nat)
    (channel : String) (payload : Option (List Nat)) : PgState × Except PgError Unit :=
  match payload with
  | none => (st, .error (.runtimeError "Invalid data received"))
  | some text => ({ st with queue := st.queue ++ [(channel, utf8Encode text)] }, .ok ())

/-- A sequence of subscribe calls; returns the final state and the
concatenated `add_listener` registration events. -/
def runSubscribes (st : PgState) : List (List String) → PgState × List String
  | [] => (st, [])
  | cs :: rest =>
    let p := AsyncPgChannelsBackend.subscribe st cs
    let q := runSubscribes p.1 rest
    (q.1, p.2 ++ q.2)

/-- A subscription-set mutation: the only two operations that touch the
subscribed-channel set. -/
inductive ChannelOp where
  | sub (channels : List String)
  | unsub (channels : List String)

/-- Apply one subscription-set mutation. -/
def applyChannelOp (st : PgState) : ChannelOp → PgState
  | .sub cs => (AsyncPgChannelsBackend.subscribe st cs).1
  | .unsub cs => (AsyncPgChannelsBackend.unsubscribe st cs).1

/-- Apply a sequence of subscribe/unsubscribe calls. -/
def applyChannelOps (ops : List ChannelOp) (st : PgState) : PgState :=
  ops.foldl applyChannelOp st

/-- HTTP methods covered by the controller layer. -/
inductive HttpMethod where
  | GET | POST | PUT | PATCH | DELETE
deriving DecidableEq

/-- Modelled from the spec: the controller/routing/DI implementation (the
`starlite` package) is absent from the source excerpt, which holds only
its test suite. Default success status code per method, used when a
handler does not override the status (spec section 4.3). -/
def defaultStatusCode : HttpMethod → Nat
  | .GET => 200
  | .POST => 201
  | .PUT => 200
  | .PATCH => 200
  | .DELETE => 204

/-- A JSON value, the serialization target of handler return values. -/
inductive JsonValue where
  | null
  | num (n : Int)
  | str (s : String)
  | arr (elems : List JsonValue)
  | obj (fields : List (String × JsonValue))

/-- The `Person` record of the test fixtures: integer id and two text
fields. -/
structure Person where
  id : Int
  first_name : String
  last_name : String
deriving DecidableEq

/-- Embedding of `person_instance.dict()`: the record's field mapping. -/
def Person.dict (p : Person) : List (String × JsonValue) :=
  [("id", .num p.id), ("first_name", .str p.first_name), ("last_name", .str p.last_name)]

/-- Modelled from the spec: a request handler as registered by a
per-method decorator — one HTTP method, an optional path suffix, an
optional explicit status override (absent means the method default), a
flag for a declared body-data parameter, and the fixed record it returns
(spec section 4.3 Handler). -/
structure Handler where
  method : HttpMethod
  pathSuffix : String
  status_code : Option Nat
  hasDataParam : Bool
  returnValue : Person

/-- Modelled from the spec: a controller groups handlers under a base
path (spec section 4.3 Controller). -/
structure Controller where
  path : String
  handlers : List Handler

/-- An inbound HTTP request as seen by the routing layer. -/
structure HttpRequest where
  method : HttpMethod
  path : String
  body : Option JsonValue

/-- An HTTP response: status code and JSON body. -/
structure HttpResponse where
  status_code : Nat
  body : JsonValue

/-- Modelled from the spec: route registration validates only that the
controller resolves to a non-absent base path (its own path or its
owner's); handler signatures are NOT checked against method semantics, so
a GET handler declaring a body-data parameter is accepted here (spec
sections 4.3 and 9). -/
def registerController (ownerPath : String) (c : Controller) : Except String Unit :=
  if ownerPath ++ c.path = "" then
    .error "Controller path not set"
  else
    .ok ()

/-- Modelled from the spec: per-request dispatch. A body-data parameter
declared on a GET handler surfaces as an internal server error (status
500) when the request is dispatched; otherwise the handler executes and
its record return value is serialized as the JSON field mapping, with the
method's default status unless the handler overrides it (spec sections
4.3 and 7). -/
def dispatchHandler (h : Handler) : HttpResponse :=
  if h.hasDataParam && (h.method == .GET) then
    { status_code := 500, body := .null }
  else
    { status_code := h.status_code.getD (defaultStatusCode h.method),
      body := .obj h.returnValue.dict }

/-- Modelled from the spec: match an inbound request against the
controller's handlers by method and full path (controller base path plus
handler suffix) and dispatch it. -/
def handleRequest (c : Controller) (req : HttpRequest) : HttpResponse :=
  match c.handlers.find? fun h => (h.method == req.method) && (c.path ++ h.pathSuffix == req.path) with
  | some h => dispatchHandler h
  | none => { status_code := 404, body := .null }

/-- The controller of `test_controller_http_method`: base path `/person`,
wrapping one handler registered by the decorator of `m` with no status
override, no parameters, returning the fixed record `p`. -/
def methodTestController (m : HttpMethod) (p : Person) : Controller :=
  { path := "/person",
    handlers := [{ method := m, pathSuffix := "", status_code := none,
                   hasDataParam := false, returnValue := p }] }

/-- The controller of `test_defining_data_for_get_handler_raises_exception`:
a GET handler declaring a body-data parameter of record type. -/
def dataOnGetController (p : Person) : Controller :=
  { path := "/person",
    handlers := [{ method := .GET, pathSuffix := "", status_code := none,
                   hasDataParam := true, returnValue := p }] }

/-- Modelled from the spec: a type annotation as consumed by
`litestar.utils.typing` (implementation absent from the excerpt; only its
unit tests are present). Pre-3.10 generic aliases (`List[X]`, `Tuple[X, ...]`,
`Deque[X]`) and the lowercase builtin-generic forms (`list[X]`,
`tuple[X, ...]`, `deque[X]`) are semantically equivalent inputs per spec
section 4.1, so the model gives both one constructor. The two marker
record types of the test fixtures are distinct atoms. -/
inductive PyType where
  | int
  | str
  | bool
  | noneType
  | dataclassPerson
  | dataclassPet
  | list_ (elem : PyType)
  | sequence (elem : PyType)
  | iterable (elem : PyType)
  | tupleEllipsis (elem : PyType)
  | deque (elem : PyType)
  | dict (key value : PyType)
deriving DecidableEq

/-- Modelled from the spec: `annotation_is_iterable_of_type` returns true
iff the annotation denotes one of the generic iterable container shapes
(ordered sequence, generic sequence protocol, generic iterable protocol,
homogeneous tuple with ellipsis, double-ended queue) whose element type is
exactly the target type (spec section 4.1). -/
def annotation_is_iterable_of_type (ann : PyType) (type_value : PyType) : Bool :=
  match ann with
  | .list_ t => t == type_value
  | .sequence t => t == type_value
  | .iterable t => t == type_value
  | .tupleEllipsis t => t == type_value
  | .deque t => t == type_value
  | _ => false

/-- Modelled from the spec: `make_non_optional_union` over a union
annotation, represented by its ordered list of variant types; the result
is the same union with the absent-value variant (`NoneType`) removed
(spec section 4.1). -/
def make_non_optional_union (variants : List PyType) : List PyType :=
  variants.filter fun t => t != PyType.noneType

/-- Modelled from the spec: Python's `Optional[X]` normalizes to the union
of `X`'s variants with `NoneType` appended when not already present, so
`Optional[Union[str, int]]` has the variant list `[str, int, NoneType]`. -/
def pyOptional (variants : List PyType) : List PyType :=
  if PyType.noneType ∈ variants then variants else variants ++ [PyType.noneType]


/-- The decoder maps the empty byte string to the empty text. -/
theorem utf8Decode_nil : utf8Decode [] = some [] := rfl

theorem utf8Decode_cons (b1 : Nat) (rest : List Nat) :
    utf8Decode (b1 :: rest) =
      if b1 ≤ 0x7F then
        (utf8Decode rest).map fun cs => b1 :: cs
      else if 0xC2 ≤ b1 ∧ b1 ≤ 0xDF then
        match rest with
        | b2 :: rest2 =>
          if contByte b2 then
            (utf8Decode rest2).map fun cs => ((b1 - 0xC0) * 0x40 + (b2 - 0x80)) :: cs
          else none
        | [] => none
      else if 0xE0 ≤ b1 ∧ b1 ≤ 0xEF then
        match rest with
        | b2 :: b3 :: rest3 =>
          if cont2lo b1 ≤ b2 ∧ b2 ≤ cont2hi b1 ∧ contByte b3 then
            (utf8Decode rest3).map fun cs =>
              ((b1 - 0xE0) * 0x1000 + (b2 - 0x80) * 0x40 + (b3 - 0x80)) :: cs
          else none
        | _ => none
      else if 0xF0 ≤ b1 ∧ b1 ≤ 0xF4 then
        match rest with
        | b2 :: b3 :: b4 :: rest4 =>
          if cont3lo b1 ≤ b2 ∧ b2 ≤ cont3hi b1 ∧ contByte b3 ∧ contByte b4 then
            (utf8Decode rest4).map fun cs =>
              ((b1 - 0xF0) * 0x40000 + (b2 - 0x80) * 0x1000 + (b3 - 0x80) * 0x40 + (b4 - 0x80)) :: cs
          else none
        | _ => none
      else none := by
  cases rest with
  | nil => rfl
  | cons b2 rest2 =>
    cases rest2 with
    | nil => rfl
    | cons b3 rest3 =>
      cases rest3 with
      | nil => rfl
      | cons b4 rest4 => rfl

theorem utf8_encode_decode : ∀ (bs cs : List Nat), utf8Decode bs = some cs → utf8Encode cs = bs := by
  intro bs
  induction bs using utf8Decode.induct with
  | case1 =>
    intro cs h
    rw [utf8Decode_nil] at h
    obtain rfl : ([] : List Nat) = cs := Option.some.inj h
    rfl
  | case2 b1 rest h1 ih =>
    intro cs h
    rw [utf8Decode_cons, if_pos h1] at h
    simp only [Option.map_eq_some'] at h
    obtain ⟨cs', hdec, rfl⟩ := h
    simp [utf8Encode, utf8EncodeChar, h1, ih cs' hdec]
  | case3 b1 h1 h2 b2 rest2 hc ih =>
    intro cs h
    rw [utf8Decode_cons, if_neg h1, if_pos h2] at h
    simp only [if_pos hc, Option.map_eq_some'] at h
    obtain ⟨cs', hdec, rfl⟩ := h
    simp only [contByte, Bool.and_eq_true, decide_eq_true_eq] at hc
    rw [utf8Encode, ih cs' hdec]
    have henc : utf8EncodeChar ((b1 - 0xC0) * 0x40 + (b2 - 0x80)) = [b1, b2] := by
      rw [utf8EncodeChar]
      rw [if_neg (by omega), if_pos (by omega)]
      have e1 : 0xC0 + ((b1 - 0xC0) * 0x40 + (b2 - 0x80)) / 0x40 = b1 := by omega
      have e2 : 0x80 + ((b1 - 0xC0) * 0x40 + (b2 - 0x80)) % 0x40 = b2 := by omega
      rw [e1, e2]
    rw [henc]
    rfl
  | case4 b1 h1 h2 b2 rest2 hc =>
    intro cs h
    rw [utf8Decode_cons, if_neg h1, if_pos h2] at h
    simp only [if_neg hc] at h
    exact absurd h (by simp)
  | case5 b1 h1 h2 =>
    intro cs h
    rw [utf8Decode_cons, if_neg h1, if_pos h2] at h
    exact absurd h (by simp)
  | case6 b1 h1 h2 h3 b2 b3 rest3 hc ih =>
    intro cs h
    rw [utf8Decode_cons, if_neg h1, if_neg h2, if_pos h3] at h
    simp only [if_pos hc, Option.map_eq_some'] at h
    obtain ⟨cs', hdec, rfl⟩ := h
    obtain ⟨hclo, hchi, hc3⟩ := hc
    simp only [contByte, Bool.and_eq_true, decide_eq_true_eq] at hc3
    rw [cont2lo] at hclo
    rw [cont2hi] at hchi
    have hb2lo : 0x80 ≤ b2 := by
      by_cases he : b1 = 0xE0
      · rw [if_pos he] at hclo; omega
      · rw [if_neg he] at hclo; omega
    have hb2hi : b2 ≤ 0xBF := by
      by_cases he : b1 = 0xED
      · rw [if_pos he] at hchi; omega
      · rw [if_neg he] at hchi; omega
    rw [utf8Encode, ih cs' hdec]
    have henc : utf8EncodeChar ((b1 - 0xE0) * 0x1000 + (b2 - 0x80) * 0x40 + (b3 - 0x80)) = [b1, b2, b3] := by
      rw [utf8EncodeChar]
      have hge : 0x800 ≤ (b1 - 0xE0) * 0x1000 + (b2 - 0x80) * 0x40 + (b3 - 0x80) := by
        by_cases he : b1 = 0xE0
        · rw [if_pos he] at hclo; subst he; omega
        · rw [if_neg he] at hclo; omega
      rw [if_neg (by omega), if_neg (by omega), if_pos (by omega)]
      have e1 : 0xE0 + ((b1 - 0xE0) * 0x1000 + (b2 - 0x80) * 0x40 + (b3 - 0x80)) / 0x1000 = b1 := by omega
      have e2 : 0x80 + ((b1 - 0xE0) * 0x1000 + (b2 - 0x80) * 0x40 + (b3 - 0x80)) / 0x40 % 0x40 = b2 := by omega
      have e3 : 0x80 + ((b1 - 0xE0) * 0x1000 + (b2 - 0x80) * 0x40 + (b3 - 0x80)) % 0x40 = b3 := by omega
      rw [e1, e2, e3]
    rw [henc]
    rfl
  | case7 b1 h1 h2 h3 b2 b3 rest3 hc =>
    intro cs h
    rw [utf8Decode_cons, if_neg h1, if_neg h2, if_pos h3] at h
    simp only [if_neg hc] at h
    exact absurd h (by simp)
  | case8 b1 rest h1 h2 h3 hshape =>
    intro cs h
    rw [utf8Decode_cons, if_neg h1, if_neg h2, if_pos h3] at h
    match rest, h with
    | [], h => exact absurd h (by simp)
    | [b2], h => exact absurd h (by simp)
    | b2 :: b3 :: rest3, h => exact (hshape b2 b3 rest3 rfl).elim
  | case9 b1 h1 h2 h3 h4 b2 b3 b4 rest4 hc ih =>
    intro cs h
    rw [utf8Decode_cons, if_neg h1, if_neg h2, if_neg h3, if_pos h4] at h
    simp only [if_pos hc, Option.map_eq_some'] at h
    obtain ⟨cs', hdec, rfl⟩ := h
    obtain ⟨hclo, hchi, hc3, hc4⟩ := hc
    simp only [contByte, Bool.and_eq_true, decide_eq_true_eq] at hc3 hc4
    rw [cont3lo] at hclo
    rw [cont3hi] at hchi
    have hb2lo : 0x80 ≤ b2 := by
      by_cases he : b1 = 0xF0
      · rw [if_pos he] at hclo; omega
      · rw [if_neg he] at hclo; omega
    have hb2hi : b2 ≤ 0xBF := by
      by_cases he : b1 = 0xF4
      · rw [if_pos he] at hchi; omega
      · rw [if_neg he] at hchi; omega
    rw [utf8Encode, ih cs' hdec]
    have henc : utf8EncodeChar ((b1 - 0xF0) * 0x40000 + (b2 - 0x80) * 0x1000 + (b3 - 0x80) * 0x40 + (b4 - 0x80)) = [b1, b2, b3, b4] := by
      rw [utf8EncodeChar]
      have hge : 0x10000 ≤ (b1 - 0xF0) * 0x40000 + (b2 - 0x80) * 0x1000 + (b3 - 0x80) * 0x40 + (b4 - 0x80) := by
        by_cases he : b1 = 0xF0
        · rw [if_pos he] at hclo; subst he; omega
        · rw [if_neg he] at hclo; omega
      rw [if_neg (by omega), if_neg (by omega), if_neg (by omega)]
      have e1 : 0xF0 + ((b1 - 0xF0) * 0x40000 + (b2 - 0x80) * 0x1000 + (b3 - 0x80) * 0x40 + (b4 - 0x80)) / 0x40000 = b1 := by omega
      have e2 : 0x80 + ((b1 - 0xF0) * 0x40000 + (b2 - 0x80) * 0x1000 + (b3 - 0x80) * 0x40 + (b4 - 0x80)) / 0x1000 % 0x40 = b2 := by omega
      have e3 : 0x80 + ((b1 - 0xF0) * 0x40000 + (b2 - 0x80) * 0x1000 + (b3 - 0x80) * 0x40 + (b4 - 0x80)) / 0x40 % 0x40 = b3 := by omega
      have e4 : 0x80 + ((b1 - 0xF0) * 0x40000 + (b2 - 0x80) * 0x1000 + (b3 - 0x80) * 0x40 + (b4 - 0x80)) % 0x40 = b4 := by omega
      rw [e1, e2, e3, e4]
    rw [henc]
    rfl
  | case10 b1 h1 h2 h3 h4 b2 b3 b4 rest4 hc =>
    intro cs h
    rw [utf8Decode_cons, if_neg h1, if_neg h2, if_neg h3, if_pos h4] at h
    simp only [if_neg hc] at h
    exact absurd h (by simp)
  | case11 b1 rest h1 h2 h3 h4 hshape =>
    intro cs h
    rw [utf8Decode_cons, if_neg h1, if_neg h2, if_neg h3, if_pos h4] at h
    match rest, h with
    | [], h => exact absurd h (by simp)
    | [b2], h => exact absurd h (by simp)
    | [b2, b3], h => exact absurd h (by simp)
    | b2 :: b3 :: b4 :: rest4, h => exact (hshape b2 b3 b4 rest4 rfl).elim
  | case12 b1 rest h1 h2 h3 h4 =>
    intro cs h
    rw [utf8Decode_cons, if_neg h1, if_neg h2, if_neg h3, if_neg h4] at h
    exact absurd h (by simp)


/-- Registration events of one subscribe call: exactly the requested
channels not already subscribed. -/
theorem subscribe_registered_iff (st : PgState) (chs : List String) (ch : String) :
    ch ∈ (AsyncPgChannelsBackend.subscribe st chs).2 ↔
      ch ∈ chs ∧ ch ∉ st.subscribed_channels := by
  simp [AsyncPgChannelsBackend.subscribe, List.mem_filter, List.mem_dedup]

/-- The registration events of one subscribe call are duplicate-free. -/
theorem subscribe_registered_nodup (st : PgState) (chs : List String) :
    (AsyncPgChannelsBackend.subscribe st chs).2.Nodup :=
  (List.nodup_dedup chs).filter _

/-- Membership in the subscribed set after a subscribe call. -/
theorem subscribe_mem_iff (st : PgState) (chs : List String) (ch : String) :
    ch ∈ (AsyncPgChannelsBackend.subscribe st chs).1.subscribed_channels ↔
      ch ∈ st.subscribed_channels ∨ ch ∈ chs := by
  simp only [AsyncPgChannelsBackend.subscribe, List.mem_append, List.mem_filter,
    List.mem_dedup, decide_eq_true_eq]
  constructor
  · rintro (h | ⟨h, _⟩)
    · exact Or.inl h
    · exact Or.inr h
  · intro h
    by_cases hm : ch ∈ st.subscribed_channels
    · exact Or.inl hm
    · rcases h with h | h
      · exact absurd h hm
      · exact Or.inr ⟨h, hm⟩

/-- Subscribe preserves freedom from duplicates of the subscribed set. -/
theorem subscribe_nodup (st : PgState) (chs : List String)
    (h : st.subscribed_channels.Nodup) :
    (AsyncPgChannelsBackend.subscribe st chs).1.subscribed_channels.Nodup := by
  refine List.Nodup.append h ((List.nodup_dedup chs).filter _) ?_
  intro a ha hb
  rw [List.mem_filter] at hb
  exact absurd ha (by simpa using hb.2)

/-- Unsubscribe preserves freedom from duplicates of the subscribed set. -/
theorem unsubscribe_nodup (st : PgState) (chs : List String)
    (h : st.subscribed_channels.Nodup) :
    (AsyncPgChannelsBackend.unsubscribe st chs).1.subscribed_channels.Nodup :=
  h.filter _

/-- Any sequence of subscribe/unsubscribe calls preserves freedom from
duplicates of the subscribed set. -/
theorem applyChannelOps_nodup (ops : List ChannelOp) (st : PgState)
    (h : st.subscribed_channels.Nodup) :
    (applyChannelOps ops st).subscribed_channels.Nodup := by
  induction ops generalizing st with
  | nil => exact h
  | cons op rest ih =>
    rw [applyChannelOps, List.foldl_cons]
    cases op with
    | sub cs => exact ih _ (subscribe_nodup st cs h)
    | unsub cs => exact ih _ (unsubscribe_nodup st cs h)

/-- A channel already subscribed is never registered again by any later
sequence of subscribe calls. -/
theorem runSubscribes_count_eq_zero (css : List (List String)) (st : PgState) (ch : String)
    (h : ch ∈ st.subscribed_channels) :
    ((runSubscribes st css).2.count ch) = 0 := by
  induction css generalizing st with
  | nil => simp [runSubscribes]
  | cons cs rest ih =>
    simp only [runSubscribes]
    rw [List.count_append]
    have h1 : ch ∉ (AsyncPgChannelsBackend.subscribe st cs).2 := fun hm =>
      ((subscribe_registered_iff st cs ch).1 hm).2 h
    have h2 : ch ∈ (AsyncPgChannelsBackend.subscribe st cs).1.subscribed_channels :=
      (subscribe_mem_iff st cs ch).2 (Or.inl h)
    rw [List.count_eq_zero.2 h1, ih _ h2]

/-- Across any sequence of subscribe calls, each channel is registered at
most once. -/
theorem runSubscribes_count_le_one (css : List (List String)) (st : PgState) (ch : String) :
    ((runSubscribes st css).2.count ch) ≤ 1 := by
  induction css generalizing st with
  | nil => simp [runSubscribes]
  | cons cs rest ih =>
    simp only [runSubscribes]
    rw [List.count_append]
    by_cases hm : ch ∈ (AsyncPgChannelsBackend.subscribe st cs).2
    · have hc1 : (AsyncPgChannelsBackend.subscribe st cs).2.count ch ≤ 1 :=
        List.nodup_iff_count_le_one.1 (subscribe_registered_nodup st cs) ch
      have hmem : ch ∈ (AsyncPgChannelsBackend.subscribe st cs).1.subscribed_channels :=
        (subscribe_mem_iff st cs ch).2 (Or.inr ((subscribe_registered_iff st cs ch).1 hm).1)
      rw [runSubscribes_count_eq_zero rest _ ch hmem]
      omega
    · rw [List.count_eq_zero.2 hm]
      simpa using ih _


/-- C1: for every supported HTTP method (GET, POST, PUT, PATCH, DELETE), a
handler registered on a controller via that method's decorator, returning
a fixed record instance and not overriding status, responds to a request
on the controller path with the method's default status code (GET 200,
POST 201, PUT 200, PATCH 200, DELETE 204) and a JSON body equal to the
record's field mapping. -/
theorem claim_C1_controller_http_method (m : HttpMethod) (p : Person) :
    handleRequest (methodTestController m p) { method := m, path := "/person", body := none } =
      { status_code := defaultStatusCode m, body := JsonValue.obj p.dict } ∧
    defaultStatusCode .GET = 200 ∧ defaultStatusCode .POST = 201 ∧
    defaultStatusCode .PUT = 200 ∧ defaultStatusCode .PATCH = 200 ∧
    defaultStatusCode .DELETE = 204 := by
  cases m <;> exact ⟨rfl, rfl, rfl, rfl, rfl, rfl⟩

/-- C3 counterexample: the claim says construction requires exactly one of
a connection string or a connection factory, so supplying both should not
be accepted; but `__init__` only checks `not (dsn or make_connection)`,
and constructing with both a dsn and a factory succeeds. -/
theorem claim_C3_counterexample :
    AsyncPgChannelsBackend.init (some "postgresql://app:5432/db") (some ()) =
      Except.ok { subscribed_channels := [], usesMakeConnection := true } := rfl

/-- C3 amended: construction requires at least one of a truthy connection
string or a connection factory: supplying neither (with the empty string
counting as absent) raises the configuration error synchronously at
construction, supplying at least one — including both — succeeds, and on
success the subscribed-channel set is initialized empty. -/
theorem claim_C3_amended (dsn : Option String) (make_connection : Option Unit) :
    (AsyncPgChannelsBackend.init dsn make_connection =
        .error (.improperlyConfigured "Need to specify dsn or make_connection") ↔
      dsnTruthy dsn = false ∧ make_connection = none) ∧
    ∀ s, AsyncPgChannelsBackend.init dsn make_connection = .ok s →
      s.subscribed_channels = [] := by
  cases make_connection with
  | some u =>
    refine ⟨by simp [AsyncPgChannelsBackend.init], ?_⟩
    intro s hs
    rw [AsyncPgChannelsBackend.init] at hs
    simp at hs
    rw [← hs]
  | none =>
    cases hdt : dsnTruthy dsn with
    | true =>
      refine ⟨by simp [AsyncPgChannelsBackend.init, hdt], ?_⟩
      intro s hs
      rw [AsyncPgChannelsBackend.init] at hs
      simp [hdt] at hs
      rw [← hs]
    | false =>
      refine ⟨by simp [AsyncPgChannelsBackend.init, hdt], ?_⟩
      intro s hs
      rw [AsyncPgChannelsBackend.init] at hs
      simp [hdt] at hs

/-- C3 witness: constructing with neither source fails with the
configuration error. -/
theorem claim_C3_witness :
    AsyncPgChannelsBackend.init none none =
      .error (.improperlyConfigured "Need to specify dsn or make_connection") :=
  (claim_C3_amended none none).1.mpr ⟨rfl, rfl⟩

/-- C5: a handler bound to GET that declares a body-data parameter of a
record type is not rejected at route-registration time; instead every
request dispatched to it (with or without a request body) yields an HTTP
500 internal server error response. -/
theorem claim_C5_data_on_get (p : Person) (body : Option JsonValue) :
    registerController "" (dataOnGetController p) = .ok () ∧
    (handleRequest (dataOnGetController p)
        { method := .GET, path := "/person", body := body }).status_code = 500 :=
  ⟨rfl, rfl⟩

/-- C6: notification payloads round-trip through UTF-8: for every byte
sequence that is valid UTF-8, decoding it in `publish` and re-encoding the
delivered text in the listener callback yields the original byte sequence,
so the (channel, payload) pair enqueued by `_listener` carries bytes equal
to the published bytes. -/
theorem claim_C6_payload_round_trip (st : PgState) (data dec_data : List Nat)
    (channel : String) (connection pid : Nat)
    (hdec : utf8Decode data = some dec_data) :
    utf8Encode dec_data = data ∧
    (AsyncPgChannelsBackend._listener st connection pid channel (some dec_data)).1.queue =
      st.queue ++ [(channel, data)] := by
  have hrt : utf8Encode dec_data = data := utf8_encode_decode data dec_data hdec
  exact ⟨hrt, by simp [AsyncPgChannelsBackend._listener, hrt]⟩

/-- C6 witness: the two-byte payload `0xC3 0xA9` decodes to codepoint
`0xE9` and the listener enqueues exactly the original bytes. -/
theorem claim_C6_witness :
    utf8Decode [0xC3, 0xA9] = some [0xE9] ∧
    utf8Encode [0xE9] = [0xC3, 0xA9] ∧
    (AsyncPgChannelsBackend._listener (PgState.mk [] [] 0 1) 0 42 "events"
        (some [0xE9])).1.queue = [] ++ [("events", [0xC3, 0xA9])] :=
  ⟨by decide,
   (claim_C6_payload_round_trip (PgState.mk [] [] 0 1) [0xC3, 0xA9] [0xE9] "events" 0 42
     (by decide)).1,
   (claim_C6_payload_round_trip (PgState.mk [] [] 0 1) [0xC3, 0xA9] [0xE9] "events" 0 42
     (by decide)).2⟩

/-- C7: `annotation_is_iterable_of_type` returns true for `List[T]`,
`Sequence[T]`, `Iterable[T]`, `Tuple[T, ...]`, `Deque[T]` (with the
lowercase builtin-generic equivalents modelled as the same annotations)
exactly when `T` is the target type, returns false for the same container
shapes parameterized with a different element type, and returns false for
the non-generic scalar types int, str, and bool. -/
theorem claim_C7_annotation_is_iterable_of_type (tv other : PyType) (h : other ≠ tv) :
    annotation_is_iterable_of_type (.list_ tv) tv = true ∧
    annotation_is_iterable_of_type (.sequence tv) tv = true ∧
    annotation_is_iterable_of_type (.iterable tv) tv = true ∧
    annotation_is_iterable_of_type (.tupleEllipsis tv) tv = true ∧
    annotation_is_iterable_of_type (.deque tv) tv = true ∧
    annotation_is_iterable_of_type (.list_ other) tv = false ∧
    annotation_is_iterable_of_type (.sequence other) tv = false ∧
    annotation_is_iterable_of_type (.iterable other) tv = false ∧
    annotation_is_iterable_of_type (.tupleEllipsis other) tv = false ∧
    annotation_is_iterable_of_type (.deque other) tv = false ∧
    annotation_is_iterable_of_type .int tv = false ∧
    annotation_is_iterable_of_type .str tv = false ∧
    annotation_is_iterable_of_type .bool tv = false := by
  have hne : (other == tv) = false := beq_eq_false_iff_ne.2 h
  simp [annotation_is_iterable_of_type, hne]

/-- C7 witness: instantiated at the test fixture types, with the marker
record `DataclassPerson` as target and `DataclassPet` as the different
element type. -/
theorem claim_C7_witness :
    annotation_is_iterable_of_type (.list_ .dataclassPerson) .dataclassPerson = true ∧
    annotation_is_iterable_of_type (.sequence .dataclassPerson) .dataclassPerson = true ∧
    annotation_is_iterable_of_type (.iterable .dataclassPerson) .dataclassPerson = true ∧
    annotation_is_iterable_of_type (.tupleEllipsis .dataclassPerson) .dataclassPerson = true ∧
    annotation_is_iterable_of_type (.deque .dataclassPerson) .dataclassPerson = true ∧
    annotation_is_iterable_of_type (.list_ .dataclassPet) .dataclassPerson = false ∧
    annotation_is_iterable_of_type (.sequence .dataclassPet) .dataclassPerson = false ∧
    annotation_is_iterable_of_type (.iterable .dataclassPet) .dataclassPerson = false ∧
    annotation_is_iterable_of_type (.tupleEllipsis .dataclassPet) .dataclassPerson = false ∧
    annotation_is_iterable_of_type (.deque .dataclassPet) .dataclassPerson = false ∧
    annotation_is_iterable_of_type .int .dataclassPerson = false ∧
    annotation_is_iterable_of_type .str .dataclassPerson = false ∧
    annotation_is_iterable_of_type .bool .dataclassPerson = false :=
  claim_C7_annotation_is_iterable_of_type .dataclassPerson .dataclassPet (by decide)

/-- C8: `make_non_optional_union` applied to `Union[None, str, int]` and
applied to `Optional[Union[str, int]]` both yield `Union[str, int]` — for a
union annotation containing the absent-value variant, the result is the
same union with that variant removed. -/
theorem claim_C8_make_non_optional_union :
    make_non_optional_union [.noneType, .str, .int] = [PyType.str, PyType.int] ∧
    make_non_optional_union (pyOptional [.str, .int]) = [PyType.str, PyType.int] := by
  decide

/-- C9: `get_history` always fails with an unsupported-operation error,
for every channel argument and every limit argument (present or absent),
and leaves the backend's state (subscribed-channel set, queue) unchanged. -/
theorem claim_C9_get_history (st : PgState) (channel : String) (limit : Option Nat) :
    AsyncPgChannelsBackend.get_history st channel limit = (st, .error .notImplementedError) :=
  rfl

/-- C10: when `publish` is called with a payload that is not valid UTF-8,
the decoding error is raised before any connection is opened: no notify
command is issued on any channel, no short-lived connection is created,
and the backend's state is unchanged. -/
theorem claim_C10_publish_invalid_utf8 (st : PgState) (data : List Nat)
    (channels : List String) (failAt : Option Nat)
    (hdec : utf8Decode data = none) :
    AsyncPgChannelsBackend.publish st data channels failAt =
      (st, [], .error .unicodeDecodeError) := by
  rw [AsyncPgChannelsBackend.publish.eq_def, hdec]

/-- C10 witness: the single byte `0xFF` is not valid UTF-8, and publishing
it performs no effect and fails with the decoding error. -/
theorem claim_C10_witness :
    utf8Decode [0xFF] = none ∧
    AsyncPgChannelsBackend.publish (PgState.mk ["a"] [] 0 1) [0xFF] ["a", "b"] none =
      (PgState.mk ["a"] [] 0 1, [], .error .unicodeDecodeError) :=
  ⟨by decide,
   claim_C10_publish_invalid_utf8 (PgState.mk ["a"] [] 0 1) [0xFF] ["a", "b"] none (by decide)⟩


/-- The last element of a trace of the shape `connect :: (notifies ++ [close])`
is the close effect. -/
theorem getLast_cons_concat {A : Type} (a x : A) (l : List A) :
    (a :: (l ++ [x])).getLast? = some x := by
  rw [show a :: (l ++ [x]) = (a :: l) ++ [x] from rfl, List.getLast?_concat]

/-- Any notify effect in a publish trace is on the publish connection,
carries the decoded payload, and names a channel the trace was built from. -/
theorem mem_publish_trace_notify (conn : Nat) (dec_data : List Nat) (sent : List String)
    (conn2 : Nat) (ch : String) (payload : List Nat)
    (hmem : PgEffect.notify conn2 ch payload ∈
      PgEffect.connect conn ::
        ((sent.map fun c => PgEffect.notify conn c dec_data) ++ [PgEffect.close conn])) :
    conn2 = conn ∧ payload = dec_data ∧ ch ∈ sent := by
  simp only [List.mem_cons, List.mem_append, List.mem_map, List.mem_singleton] at hmem
  rcases hmem with h | ⟨a, ha, h⟩ | h
  · exact absurd h (by simp)
  · cases h
    exact ⟨rfl, rfl, ha⟩
  · exact absurd h (by simp)

/-- C2: for every valid-UTF-8 payload and every finite list of channel
names, `publish` issues exactly one notify command per channel in the
order the channels are given, each carrying the same decoded payload text,
on a freshly opened connection distinct from the listener connection; and
that short-lived connection is closed (last effect of the trace) both when
the loop completes normally and when any notify call raises. -/
theorem claim_C2_publish (st : PgState) (data dec_data : List Nat)
    (channels : List String)
    (hdec : utf8Decode data = some dec_data)
    (hconn : st.listenerConn < st.nextConn) :
    ((AsyncPgChannelsBackend.publish st data channels none).2.1 =
        PgEffect.connect st.nextConn ::
          ((channels.map fun ch => PgEffect.notify st.nextConn ch dec_data) ++
            [PgEffect.close st.nextConn])) ∧
    st.nextConn ≠ st.listenerConn ∧
    (∀ failAt : Option Nat,
      (AsyncPgChannelsBackend.publish st data channels failAt).2.1.getLast? =
        some (PgEffect.close st.nextConn)) ∧
    (∀ (failAt : Option Nat) (conn2 : Nat) (ch : String) (payload : List Nat),
      PgEffect.notify conn2 ch payload ∈
          (AsyncPgChannelsBackend.publish st data channels failAt).2.1 →
        conn2 = st.nextConn ∧ payload = dec_data ∧ ch ∈ channels) := by
  refine ⟨?_, by omega, ?_, ?_⟩
  · rw [AsyncPgChannelsBackend.publish.eq_def, hdec]
  · intro failAt
    rw [AsyncPgChannelsBackend.publish.eq_def, hdec]
    exact getLast_cons_concat _ _ _
  · intro failAt conn2 ch payload hmem
    rw [AsyncPgChannelsBackend.publish.eq_def, hdec] at hmem
    cases failAt with
    | none =>
      exact mem_publish_trace_notify st.nextConn dec_data channels conn2 ch payload hmem
    | some i =>
      have h2 := mem_publish_trace_notify st.nextConn dec_data (channels.take i)
        conn2 ch payload hmem
      exact ⟨h2.1, h2.2.1, List.take_subset i channels h2.2.2⟩

/-- C2 witness: publishing the ASCII payload `hi` to channels `a`, `b`
from a state whose listener connection is 0 and whose next fresh
connection is 1. -/
theorem claim_C2_witness :
    utf8Decode [104, 105] = some [104, 105] ∧
    (PgState.mk [] [] 0 1).listenerConn < (PgState.mk [] [] 0 1).nextConn ∧
    (((AsyncPgChannelsBackend.publish (PgState.mk [] [] 0 1) [104, 105] ["a", "b"] none).2.1 =
        PgEffect.connect (PgState.mk [] [] 0 1).nextConn ::
          ((["a", "b"].map fun ch =>
              PgEffect.notify (PgState.mk [] [] 0 1).nextConn ch [104, 105]) ++
            [PgEffect.close (PgState.mk [] [] 0 1).nextConn])) ∧
      (PgState.mk [] [] 0 1).nextConn ≠ (PgState.mk [] [] 0 1).listenerConn ∧
      (∀ failAt : Option Nat,
        (AsyncPgChannelsBackend.publish (PgState.mk [] [] 0 1) [104, 105] ["a", "b"]
            failAt).2.1.getLast? =
          some (PgEffect.close (PgState.mk [] [] 0 1).nextConn)) ∧
      (∀ (failAt : Option Nat) (conn2 : Nat) (ch : String) (payload : List Nat),
        PgEffect.notify conn2 ch payload ∈
            (AsyncPgChannelsBackend.publish (PgState.mk [] [] 0 1) [104, 105] ["a", "b"]
              failAt).2.1 →
          conn2 = (PgState.mk [] [] 0 1).nextConn ∧ payload = [104, 105] ∧
            ch ∈ ["a", "b"])) :=
  ⟨by decide, by decide,
   claim_C2_publish (PgState.mk [] [] 0 1) [104, 105] [104, 105] ["a", "b"]
     (by decide) (by decide)⟩

/-- C4: the subscribed-channel set never contains a channel more than once
under any sequence of subscribe/unsubscribe calls, and subscribe is
idempotent per channel: a channel already in the subscribed set is skipped
and, across every sequence of subscribe calls, the listener callback is
registered at most once per channel; unsubscribe removes every requested
channel from the subscribed set, and repeating it leaves the set
unchanged. -/
theorem claim_C4_subscription_set (st : PgState) (chs : List String)
    (ops : List ChannelOp) (css : List (List String)) (ch : String)
    (h : st.subscribed_channels.Nodup) :
    (applyChannelOps ops st).subscribed_channels.Nodup ∧
    (ch ∈ st.subscribed_channels → ch ∉ (AsyncPgChannelsBackend.subscribe st chs).2) ∧
    ((runSubscribes st css).2.count ch) ≤ 1 ∧
    (ch ∈ chs → ch ∉ (AsyncPgChannelsBackend.unsubscribe st chs).1.subscribed_channels) ∧
    (AsyncPgChannelsBackend.unsubscribe (AsyncPgChannelsBackend.unsubscribe st chs).1 chs).1 =
      (AsyncPgChannelsBackend.unsubscribe st chs).1 := by
  refine ⟨applyChannelOps_nodup ops st h, ?_, runSubscribes_count_le_one css st ch, ?_, ?_⟩
  · intro hmem hreg
    exact ((subscribe_registered_iff st chs ch).1 hreg).2 hmem
  · intro hmem hsub
    rw [AsyncPgChannelsBackend.unsubscribe] at hsub
    simp only [List.mem_filter, decide_eq_true_eq] at hsub
    exact hsub.2 hmem
  · rw [AsyncPgChannelsBackend.unsubscribe, AsyncPgChannelsBackend.unsubscribe]
    simp [List.filter_filter]

/-- C4 witness: instantiated at a one-channel state, a two-channel
subscribe, a mixed operation sequence, and two subscribe batches. -/
theorem claim_C4_witness :
    (PgState.mk ["a"] [] 0 1).subscribed_channels.Nodup ∧
    ((applyChannelOps [ChannelOp.sub ["a", "b"], ChannelOp.unsub ["a"]]
        (PgState.mk ["a"] [] 0 1)).subscribed_channels.Nodup ∧
      ("a" ∈ (PgState.mk ["a"] [] 0 1).subscribed_channels →
        "a" ∉ (AsyncPgChannelsBackend.subscribe (PgState.mk ["a"] [] 0 1) ["a", "b"]).2) ∧
      ((runSubscribes (PgState.mk ["a"] [] 0 1) [["a"], ["a", "b"]]).2.count "a") ≤ 1 ∧
      ("a" ∈ ["a", "b"] →
        "a" ∉ (AsyncPgChannelsBackend.unsubscribe (PgState.mk ["a"] [] 0 1)
            ["a", "b"]).1.subscribed_channels) ∧
      (AsyncPgChannelsBackend.unsubscribe
          (AsyncPgChannelsBackend.unsubscribe (PgState.mk ["a"] [] 0 1) ["a", "b"]).1
          ["a", "b"]).1 =
        (AsyncPgChannelsBackend.unsubscribe (PgState.mk ["a"] [] 0 1) ["a", "b"]).1) :=
  ⟨by decide,
   claim_C4_subscription_set (PgState.mk ["a"] [] 0 1) ["a", "b"]
     [ChannelOp.sub ["a", "b"], ChannelOp.unsub ["a"]] [["a"], ["a", "b"]] "a" (by decide)⟩

end Litestar
